import Mathlib

/-!
Verification of the greptimedb region-engine core, its OSS object-store
constructor, and its telemetry collector, against the repository's
natural-language specification.

The file is organised as a shallow embedding:
* `Telemetry` embeds `Collector::get_uuid` and `default_get_uuid` from
  `src/common/greptimedb-telemetry/src/lib.rs`.
* `Oss` embeds `new_oss_object_store` from `src/datanode/src/store/oss.rs`.
* `Mito` models the region engine (`create_region`, `is_region_exists`,
  `stop`, the worker group and routing) whose implementation is exercised by
  `src/mito2/src/engine/tests.rs`.
-/

namespace Telemetry

/-- The collector's uuid-retrieval state: a retry counter (`i32` in the
source, modelled as `Int`) and an optional cached uuid, matching the
`get_retry` / `inc_retry` / `set_uuid_cache` / `get_uuid_cache` accessors of
the `Collector` trait. -/
structure CollectorState where
  retry : Int
  uuid_cache : Option String
deriving DecidableEq, Repr

/-- Embedding of `Collector::get_uuid` (lib.rs lines 119-138).  The outcome
of the single `default_get_uuid()` attempt performed by the body is passed in
as `fetch`; the function returns the produced uuid (if any) together with the
updated collector state.

Source logic: if a uuid is cached, return it; otherwise, if `get_retry() > 3`
return `None` without attempting retrieval; otherwise attempt retrieval: on
success cache and return the uuid, on failure `inc_retry()` and return
`None`. -/
def get_uuid (fetch : Option String) (s : CollectorState) :
    Option String × CollectorState :=
  match s.uuid_cache with
  | some uuid => (some uuid, s)
  | none =>
    if s.retry > 3 then
      (none, s)
    else
      match fetch with
      | some uuid => (some uuid, { s with uuid_cache := some uuid })
      | none => (none, { s with retry := s.retry + 1 })

/-- The `std::io::ErrorKind` values distinguished by `default_get_uuid`:
`NotFound` is handled specially, every other kind is collapsed. -/
inductive FsErrorKind where
  | NotFound
  | PermissionDenied
  | Other
deriving DecidableEq, Repr

/-- Embedding of `default_get_uuid` (lib.rs lines 141-155).
`readRes` is the outcome of `std::fs::read` on the uuid file (on success the
source applies `String::from_utf8_lossy` to the bytes; the embedding carries
the decoded string).  `freshUuid` is the value `uuid::Uuid::new_v4()` would
produce, and `writeRes` the outcome of `std::fs::write`.  Returns the
optional uuid together with a flag recording whether a write was attempted
(the source discards the write's result via `let _ = ...`). -/
def default_get_uuid (readRes : Except FsErrorKind String) (freshUuid : String)
    (writeRes : Except FsErrorKind Unit) : Option String × Bool :=
  match readRes with
  | .ok contents => (some contents, false)
  | .error e =>
    if e = FsErrorKind.NotFound then
      match writeRes with
      | .ok _ => (some freshUuid, true)
      | .error _ => (some freshUuid, true)
    else
      (none, false)

end Telemetry

namespace Oss

/-- The fields of `OssConfig` used by `new_oss_object_store`
(`src/datanode/src/store/oss.rs`); the two secrets are carried as plain
strings, `expose_secret` being the identity on the embedded value. -/
structure OssConfig where
  root : String
  bucket : String
  endpoint : String
  access_key_id : String
  access_key_secret : String
deriving DecidableEq, Repr

/-- The builder state assembled by `new_oss_object_store` before handing it
to the object-store backend (`OSSBuilder` with `root`, `bucket`, `endpoint`,
`access_key_id`, `access_key_secret` set). -/
structure OssBuilder where
  root : String
  bucket : String
  endpoint : String
  access_key_id : String
  access_key_secret : String
deriving DecidableEq, Repr

/-- `object_store::util::normalize_dir`: lives outside the sources under
verification (only its caller is); modelled as ensuring a trailing slash.
No claim below depends on its behaviour. -/
def normalize_dir (dir : String) : String :=
  if dir.endsWith "/" then dir else dir ++ "/"

/-- The builder value `new_oss_object_store` constructs from a config. -/
def builderOf (cfg : OssConfig) : OssBuilder :=
  { root := normalize_dir cfg.root
    bucket := cfg.bucket
    endpoint := cfg.endpoint
    access_key_id := cfg.access_key_id
    access_key_secret := cfg.access_key_secret }

/-- Errors surfaced by `new_oss_object_store`: the only variant is
`error::InitBackend`, wrapping the backend's own error (here an opaque
`Nat` code standing for the opendal error value). -/
inductive StoreError where
  | InitBackend (source : Nat)
deriving DecidableEq, Repr

/-- Embedding of `new_oss_object_store` (oss.rs lines 24-42).  The external
collaborator `ObjectStore::new` is passed in as `init`: a function from the
assembled builder to either a backend error code or a finished store (an
opaque `Nat` handle; `.finish()` is the identity on it).  The source calls
`init` once, wraps a failure in `InitBackend` via
`.context(error::InitBackendSnafu)?`, and returns the finished store on
success. -/
def new_oss_object_store (init : OssBuilder → Except Nat Nat)
    (cfg : OssConfig) : Except StoreError Nat :=
  match init (builderOf cfg) with
  | .error e => .error (StoreError.InitBackend e)
  | .ok store => .ok store

end Oss

namespace Mito

/-- Modelled from the spec: `RegionId` (spec section 3 and 4.1) — the mito2
engine implementation is not among the sources, only its tests are.  An
immutable pair of a table identifier and a region number (`u32`-equivalent
components, carried as `Nat`), with structural equality. -/
structure RegionId where
  table_id : Nat
  region_number : Nat
deriving DecidableEq, Repr

/-- Modelled from the spec: the packed 64-bit encoding of a `RegionId`
(spec section 3), used as the stable sharding key. -/
def RegionId.packed (id : RegionId) : Nat :=
  id.table_id * 2 ^ 32 + id.region_number

/-- Opaque region configuration payload (schema/options supplied at
creation); its content is irrelevant to the lifecycle model. -/
abbrev RegionConfig := Nat

/-- Modelled from the spec: a `Region` (spec section 3) — identity is the key
it is stored under; it carries the configuration supplied at creation and a
version/generation counter bumped on alter. -/
structure Region where
  config : RegionConfig
  version : Nat
deriving DecidableEq, Repr

/-- Lookup in a worker's private association list from `RegionId` to
`Region` (keys unique). -/
def regionsLookup (rs : List (RegionId × Region)) (id : RegionId) :
    Option Region :=
  match rs with
  | [] => none
  | (i, r) :: rest => if i = id then some r else regionsLookup rest id

/-- Modelled from the spec: a `Worker` (spec sections 2, 3, 4.2) — owns a
running flag and a mapping from `RegionId` to `Region` for the regions
sharded to it. -/
structure Worker where
  running : Bool
  regions : List (RegionId × Region)
deriving DecidableEq, Repr

/-- Modelled from the spec: the engine's error taxonomy (spec section 7),
restricted to the variants the lifecycle operations below can produce. -/
inductive EngineError where
  | WorkerStopped
  | RegionExists
  | RegionNotFound
deriving DecidableEq, Repr

/-- Modelled from the spec: `route` (spec section 4.3) — a pure, stable
function of the packed `RegionId`, reduced modulo the worker-pool size. -/
def route (id : RegionId) (n : Nat) : Nat :=
  id.packed % n

/-- Modelled from the spec: the `Engine` façade (spec sections 3, 4.4) — a
running/stopped flag plus the fixed worker pool. -/
structure MitoEngine where
  running : Bool
  workers : List Worker
deriving DecidableEq, Repr

/-- Modelled from the spec: engine construction — a running engine over a
fixed-size pool of `n` running workers, each with no regions yet. -/
def MitoEngine.new (n : Nat) : MitoEngine :=
  { running := true, workers := List.replicate n { running := true, regions := [] } }

/-- Modelled from the spec: the worker-side handling of a create request
(spec sections 4.2 and 4.4).  A stopped worker rejects the request with
`WorkerStopped` without enqueuing; otherwise: absent region — insert it
(fresh version counter) and succeed; present region — no-op success when
`create_if_not_exists` is true, `RegionExists` otherwise, the mapping left
untouched. -/
def Worker.handle_create (w : Worker) (id : RegionId) (cfg : RegionConfig)
    (create_if_not_exists : Bool) : Except EngineError Worker :=
  if w.running = false then
    .error EngineError.WorkerStopped
  else
    match regionsLookup w.regions id with
    | some _ =>
      if create_if_not_exists then .ok w else .error EngineError.RegionExists
    | none =>
      .ok { w with regions := (id, { config := cfg, version := 0 }) :: w.regions }

/-- Modelled from the spec: `Engine::create_region` (spec section 4.4).
First checks the running flag — if stopped, fails immediately with
`WorkerStopped` without touching any worker; otherwise routes the request to
the owning worker, applies `Worker.handle_create`, and on success installs
the updated worker.  The engine state is returned alongside the result: on
any error it is the unchanged input state. -/
def MitoEngine.create_region (e : MitoEngine) (id : RegionId)
    (cfg : RegionConfig) (create_if_not_exists : Bool) :
    MitoEngine × Except EngineError Unit :=
  if e.running = false then
    (e, .error EngineError.WorkerStopped)
  else
    let i := route id e.workers.length
    match e.workers[i]? with
    | none => (e, .error EngineError.WorkerStopped)
    | some w =>
      match w.handle_create id cfg create_if_not_exists with
      | .error err => (e, .error err)
      | .ok w2 => ({ e with workers := e.workers.set i w2 }, .ok ())

/-- The region entry the engine currently holds for `id` (a model observer:
the routed worker's mapping looked up at `id`). -/
def MitoEngine.lookupRegion (e : MitoEngine) (id : RegionId) : Option Region :=
  match e.workers[route id e.workers.length]? with
  | none => none
  | some w => regionsLookup w.regions id

/-- The configuration currently stored for `id`, if any. -/
def MitoEngine.region_config (e : MitoEngine) (id : RegionId) :
    Option RegionConfig :=
  (e.lookupRegion id).map Region.config

/-- Modelled from the spec: `Engine::is_region_exists` (spec section 4.4) —
a pure read against the owning worker's region mapping; if the engine is
stopped it returns `false` rather than erroring. -/
def MitoEngine.is_region_exists (e : MitoEngine) (id : RegionId) : Bool :=
  if e.running = false then false
  else (e.lookupRegion id).isSome

/-- Modelled from the spec: `Worker::stop` (spec section 4.2) — flips the
worker to stopped; idempotent; the region mapping is retained. -/
def Worker.stopWorker (w : Worker) : Worker :=
  { w with running := false }

/-- Modelled from the spec: `Engine::stop` (spec section 4.4) — flips the
running flag (one-way), then `stop_all()` on the worker group; always
returns success, and calling it again is a no-op returning success. -/
def MitoEngine.stop (e : MitoEngine) : MitoEngine × Except EngineError Unit :=
  ({ running := false, workers := e.workers.map Worker.stopWorker }, .ok ())

/-- The engine operations of the lifecycle model, for stating properties
quantified over every operation. -/
inductive EngineOp where
  | create (id : RegionId) (cfg : RegionConfig) (create_if_not_exists : Bool)
  | stopOp
deriving DecidableEq, Repr

/-- Apply one operation to the engine state. -/
def MitoEngine.apply (e : MitoEngine) :
    EngineOp → MitoEngine × Except EngineError Unit
  | .create id cfg b => e.create_region id cfg b
  | .stopOp => e.stop

/-- Modelled from the spec: serialized execution of a queue of requests by
the engine (spec sections 4.2 and 5) — each request is fully applied, its
reply recorded, before the next request begins. -/
def MitoEngine.applyAll (e : MitoEngine) :
    List EngineOp → MitoEngine × List (Except EngineError Unit)
  | [] => (e, [])
  | op :: rest =>
    let (e1, r) := e.apply op
    let (e2, rs) := e1.applyAll rest
    (e2, r :: rs)

/-- Spec invariant (sections 2 and 3): workers run until the engine is
stopped — every worker of a running engine is itself running. -/
def MitoEngine.workersRunning (e : MitoEngine) : Bool :=
  e.workers.all Worker.running

end Mito

namespace Mito

/-- Writing back the element already stored at an index leaves a list
unchanged. -/
theorem set_getElem?_self {α : Type} (l : List α) (i : Nat) (a : α)
    (h : l[i]? = some a) : l.set i a = l := by
  induction l generalizing i with
  | nil => simp at h
  | cons x xs ih =>
    cases i with
    | zero =>
      simp only [List.getElem?_cons_zero, Option.some.injEq] at h
      rw [h]
      rfl
    | succ j =>
      simp only [List.getElem?_cons_succ] at h
      show x :: xs.set j a = x :: xs
      rw [ih j h]

/-- A stopped engine rejects every create request immediately, leaving its
state untouched. -/
theorem create_region_stopped (e : MitoEngine) (id : RegionId)
    (cfg : RegionConfig) (b : Bool) (h : e.running = false) :
    e.create_region id cfg b = (e, .error EngineError.WorkerStopped) := by
  simp [MitoEngine.create_region, h]

/-- Characterisation of a successful worker-side create: the worker was
running, and either the region was present, the flag was set and the worker
is unchanged, or the region was absent and got inserted. -/
theorem handle_create_ok {w w2 : Worker} {id : RegionId} {cfg : RegionConfig}
    {b : Bool} (h : w.handle_create id cfg b = .ok w2) :
    w.running = true ∧
    ((∃ r, regionsLookup w.regions id = some r ∧ b = true ∧ w2 = w) ∨
      (regionsLookup w.regions id = none ∧
        w2 = { w with
          regions := (id, { config := cfg, version := 0 }) :: w.regions })) := by
  unfold Worker.handle_create at h
  by_cases hw : w.running = false
  · simp [hw] at h
  · have hw2 : w.running = true := by
      revert hw; cases w.running <;> simp
    refine ⟨hw2, ?_⟩
    rw [if_neg hw] at h
    rcases hl : regionsLookup w.regions id with _ | r <;> simp only [hl] at h
    · simp only [Except.ok.injEq] at h
      exact Or.inr ⟨rfl, h.symm⟩
    · cases b
      · simp at h
      · simp only [if_true, Except.ok.injEq] at h
        exact Or.inl ⟨r, rfl, rfl, h.symm⟩

/-- A running worker inserts an absent region. -/
theorem handle_create_absent {w : Worker} {id : RegionId} (cfg : RegionConfig)
    (b : Bool) (hw : w.running = true)
    (hl : regionsLookup w.regions id = none) :
    w.handle_create id cfg b =
      .ok { w with
        regions := (id, { config := cfg, version := 0 }) :: w.regions } := by
  simp [Worker.handle_create, hw, hl]

/-- A running worker rejects a create for a present region when the flag is
not set. -/
theorem handle_create_present_false {w : Worker} {id : RegionId} {r : Region}
    (cfg : RegionConfig) (hw : w.running = true)
    (hl : regionsLookup w.regions id = some r) :
    w.handle_create id cfg false = .error EngineError.RegionExists := by
  simp [Worker.handle_create, hw, hl]

/-- A running worker treats a create for a present region as a no-op success
when the flag is set. -/
theorem handle_create_present_true {w : Worker} {id : RegionId} {r : Region}
    (cfg : RegionConfig) (hw : w.running = true)
    (hl : regionsLookup w.regions id = some r) :
    w.handle_create id cfg true = .ok w := by
  simp [Worker.handle_create, hw, hl]

/-- Looking a key up right after inserting it at the head. -/
theorem regionsLookup_cons_self (id : RegionId) (r : Region)
    (rest : List (RegionId × Region)) :
    regionsLookup ((id, r) :: rest) id = some r := by
  simp [regionsLookup]

/-- The engine-level region lookup reads the routed worker's mapping. -/
theorem lookupRegion_eq (e : MitoEngine) (id : RegionId) (w : Worker)
    (hw : e.workers[route id e.workers.length]? = some w) :
    e.lookupRegion id = regionsLookup w.regions id := by
  simp [MitoEngine.lookupRegion, hw]

/-- A present engine-level lookup exhibits the routed worker and the stored
region. -/
theorem lookupRegion_some (e : MitoEngine) (id : RegionId)
    (h : (e.lookupRegion id).isSome = true) :
    ∃ w r, e.workers[route id e.workers.length]? = some w ∧
      regionsLookup w.regions id = some r := by
  unfold MitoEngine.lookupRegion at h
  rcases hw : e.workers[route id e.workers.length]? with _ | w <;>
    simp only [hw] at h
  · simp at h
  · rcases Option.isSome_iff_exists.mp h with ⟨r, hr⟩
    exact ⟨w, r, rfl, hr⟩

/-- In an engine satisfying the workers-running invariant, every worker of
the pool is running. -/
theorem worker_running_of_mem {e : MitoEngine} {w : Worker}
    (hwr : e.workersRunning = true) (hm : w ∈ e.workers) : w.running = true :=
  List.all_eq_true.mp hwr w hm

/-- The workers-running invariant is preserved when one slot is replaced by
a running worker. -/
theorem workersRunning_set {e : MitoEngine} {w2 : Worker} (i : Nat)
    (hwr : e.workersRunning = true) (h2 : w2.running = true) :
    ({ e with workers := e.workers.set i w2 } : MitoEngine).workersRunning
      = true := by
  unfold MitoEngine.workersRunning
  refine List.all_eq_true.mpr fun x hx => ?_
  rcases List.mem_or_eq_of_mem_set hx with hm | rfl
  · exact worker_running_of_mem hwr hm
  · exact h2

end Mito

namespace Mito

/-- Serialized processing of a two-request queue: the first request is fully
applied and replied to, and the second request starts from the state the
first produced. -/
theorem applyAll_pair (e : MitoEngine) (op1 op2 : EngineOp) :
    e.applyAll [op1, op2]
      = (((e.apply op1).1.apply op2).1,
          [(e.apply op1).2, ((e.apply op1).1.apply op2).2]) := rfl

/-- Creating an absent region on a running engine succeeds and preserves the
engine invariants; afterwards the region is stored with the supplied
configuration and a fresh version counter. -/
theorem create_region_absent_props (e : MitoEngine) (id : RegionId)
    (cfg : RegionConfig) (b : Bool) (hr : e.running = true)
    (hlen : 0 < e.workers.length) (hwr : e.workersRunning = true)
    (habs : e.lookupRegion id = none) :
    (e.create_region id cfg b).2 = .ok () ∧
    (e.create_region id cfg b).1.running = true ∧
    (e.create_region id cfg b).1.workers.length = e.workers.length ∧
    (e.create_region id cfg b).1.workersRunning = true ∧
    (e.create_region id cfg b).1.lookupRegion id
      = some { config := cfg, version := 0 } := by
  have hi : route id e.workers.length < e.workers.length := Nat.mod_lt _ hlen
  have hw : e.workers[route id e.workers.length]?
      = some (e.workers.get ⟨route id e.workers.length, hi⟩) := by
    rw [List.getElem?_eq_getElem hi]
    rfl
  have hwrun : (e.workers.get ⟨route id e.workers.length, hi⟩).running = true :=
    worker_running_of_mem hwr (List.getElem?_mem hw)
  have hl : regionsLookup (e.workers.get ⟨route id e.workers.length, hi⟩).regions id
      = none := by
    rw [← lookupRegion_eq e id _ hw]
    exact habs
  have hc := handle_create_absent (w := e.workers.get ⟨route id e.workers.length, hi⟩)
    cfg b hwrun hl
  have hcr : e.create_region id cfg b =
      (MitoEngine.mk e.running
        (e.workers.set (route id e.workers.length)
          (Worker.mk true
            ((id, Region.mk cfg 0)
              :: (e.workers.get ⟨route id e.workers.length, hi⟩).regions))),
        Except.ok ()) := by
    unfold MitoEngine.create_region
    rw [if_neg (by simp [hr])]
    simp only [hw, hc]
    rw [hwrun]
  rw [hcr]
  refine ⟨rfl, hr, List.length_set _ _ _, ?_, ?_⟩
  · exact workersRunning_set _ hwr rfl
  · unfold MitoEngine.lookupRegion
    simp only [List.length_set]
    rw [List.getElem?_set_eq_of_lt _ hi]
    exact regionsLookup_cons_self id _ _

/-- Creating a region that is already present on a running engine fails with
`RegionExists` when the flag is not set, leaving the engine untouched, and is
a no-op success when it is set. -/
theorem create_region_present (e : MitoEngine) (id : RegionId)
    (cfg : RegionConfig) (hr : e.running = true)
    (hwr : e.workersRunning = true)
    (hsome : (e.lookupRegion id).isSome = true) :
    e.create_region id cfg false = (e, .error EngineError.RegionExists) ∧
    e.create_region id cfg true = (e, .ok ()) := by
  rcases lookupRegion_some e id hsome with ⟨w, r, hw, hlr⟩
  have hwrun : w.running = true :=
    worker_running_of_mem hwr (List.getElem?_mem hw)
  constructor
  · unfold MitoEngine.create_region
    rw [if_neg (by simp [hr])]
    simp only [hw, handle_create_present_false cfg hwrun hlr]
  · have hset : e.workers.set (route id e.workers.length) w = e.workers :=
      set_getElem?_self _ _ _ hw
    unfold MitoEngine.create_region
    rw [if_neg (by simp [hr])]
    simp only [hw, handle_create_present_true cfg hwrun hlr, hset]

/-- A create request that succeeded leaves the engine reporting the region
as existing, whatever the flag was. -/
theorem create_region_ok_exists (e : MitoEngine) (id : RegionId)
    (cfg : RegionConfig) (b : Bool)
    (h : (e.create_region id cfg b).2 = .ok ()) :
    (e.create_region id cfg b).1.is_region_exists id = true := by
  by_cases hr : e.running = false
  · rw [create_region_stopped e id cfg b hr] at h
    simp at h
  · rcases hw : e.workers[route id e.workers.length]? with _ | w
    · unfold MitoEngine.create_region at h
      rw [if_neg hr] at h
      simp only [hw] at h
      simp at h
    · rcases hc : w.handle_create id cfg b with err | w2
      · unfold MitoEngine.create_region at h
        rw [if_neg hr] at h
        simp only [hw, hc] at h
        simp at h
      · have hi : route id e.workers.length < e.workers.length := by
          rcases List.getElem?_eq_some.mp hw with ⟨hi, _⟩
          exact hi
        have hcr : e.create_region id cfg b =
            ({ e with workers := e.workers.set (route id e.workers.length) w2 },
              .ok ()) := by
          unfold MitoEngine.create_region
          rw [if_neg hr]
          simp only [hw, hc]
        rw [hcr]
        rcases handle_create_ok hc with ⟨hwrun, hcase⟩
        have hlook : (regionsLookup w2.regions id).isSome = true := by
          rcases hcase with ⟨r, hl, _, h2⟩ | ⟨hl, h2⟩
          · rw [h2, hl]
            rfl
          · rw [h2]
            rw [regionsLookup_cons_self]
            rfl
        unfold MitoEngine.is_region_exists
        rw [if_neg hr]
        unfold MitoEngine.lookupRegion
        simp only [List.length_set]
        rw [List.getElem?_set_eq_of_lt _ hi]
        exact hlook

end Mito

namespace Mito

/-- Claim C1: after `stop()` has returned successfully, every subsequent
`create_region` call — on any `RegionId`, including ones never used before —
fails with `WorkerStopped` and leaves the engine state untouched, without
reaching any worker (the outcome is uniform in the worker pool's content). -/
theorem create_region_after_stop_fails (e : MitoEngine) (id : RegionId)
    (cfg : RegionConfig) (b : Bool) :
    (e.stop).2 = .ok () ∧
    (e.stop).1.create_region id cfg b
      = ((e.stop).1, .error EngineError.WorkerStopped) :=
  ⟨rfl, create_region_stopped _ id cfg b rfl⟩

/-- Claim C2: if `create_region(id, cfg, false)` succeeds, then
`is_region_exists(id)` returns true on the resulting engine. -/
theorem create_region_success_implies_exists (e : MitoEngine) (id : RegionId)
    (cfg : RegionConfig)
    (h : (e.create_region id cfg false).2 = .ok ()) :
    (e.create_region id cfg false).1.is_region_exists id = true :=
  create_region_ok_exists e id cfg false h

/-- Witness for claim C2 at a concrete engine: a fresh single-worker engine
accepts the creation of region (1, 1), after which the region exists. -/
theorem create_region_success_implies_exists_witness :
    ((MitoEngine.new 1).create_region (RegionId.mk 1 1) 0 false).2 = .ok () ∧
    ((MitoEngine.new 1).create_region (RegionId.mk 1 1) 0 false).1.is_region_exists
        (RegionId.mk 1 1) = true :=
  ⟨rfl, create_region_success_implies_exists (MitoEngine.new 1)
    (RegionId.mk 1 1) 0 rfl⟩

/-- Claim C3: a `create_region` with `create_if_not_exists = false` against a
region that already exists fails with `RegionExists` and leaves the whole
engine state — in particular the existing region's configuration —
unchanged.  The workers-running hypothesis is the spec invariant that every
worker of a running engine is running. -/
theorem create_region_existing_fails (e : MitoEngine) (id : RegionId)
    (cfg : RegionConfig) (hex : e.is_region_exists id = true)
    (hwr : e.workersRunning = true) :
    e.create_region id cfg false = (e, .error EngineError.RegionExists) := by
  have hr : e.running = true := by
    by_contra hne
    have hf : e.running = false := by
      revert hne; cases e.running <;> simp
    rw [MitoEngine.is_region_exists, if_pos hf] at hex
    exact Bool.noConfusion hex
  have hsome : (e.lookupRegion id).isSome = true := by
    rw [MitoEngine.is_region_exists, if_neg (by simp [hr])] at hex
    exact hex
  exact (create_region_present e id cfg hr hwr hsome).1

/-- Witness for claim C3 at a concrete engine: after creating region (1, 1),
a second create with the flag unset fails with `RegionExists` and the engine
is unchanged. -/
theorem create_region_existing_fails_witness :
    (((MitoEngine.new 1).create_region (RegionId.mk 1 1) 0 false).1.create_region
        (RegionId.mk 1 1) 7 false)
      = (((MitoEngine.new 1).create_region (RegionId.mk 1 1) 0 false).1,
          .error EngineError.RegionExists) :=
  create_region_existing_fails _ (RegionId.mk 1 1) 7 rfl rfl

/-- Claim C4: on a running engine (nonempty pool, workers running),
`create_region(id, cfg, true)` succeeds, calling it a second time is a no-op
success leaving the engine untouched, and the stored configuration after the
second call equals the configuration after the first. -/
theorem create_region_if_not_exists_idempotent (e : MitoEngine)
    (id : RegionId) (cfg : RegionConfig) (hr : e.running = true)
    (hlen : 0 < e.workers.length) (hwr : e.workersRunning = true) :
    (e.create_region id cfg true).2 = .ok () ∧
    ((e.create_region id cfg true).1.create_region id cfg true)
      = ((e.create_region id cfg true).1, .ok ()) ∧
    ((e.create_region id cfg true).1.create_region id cfg true).1.region_config id
      = (e.create_region id cfg true).1.region_config id := by
  by_cases hL : (e.lookupRegion id).isSome = true
  · have hpres := create_region_present e id cfg hr hwr hL
    have h1 : e.create_region id cfg true = (e, .ok ()) := hpres.2
    rw [h1]
    exact ⟨rfl, hpres.2, by rw [hpres.2]⟩
  · have habs : e.lookupRegion id = none := by
      rcases he : e.lookupRegion id with _ | r
      · rfl
      · rw [he] at hL
        simp at hL
    obtain ⟨h2ok, hrun1, _, hwr1, hsome1⟩ :=
      create_region_absent_props e id cfg true hr hlen hwr habs
    have hsome2 : ((e.create_region id cfg true).1.lookupRegion id).isSome
        = true := by
      rw [hsome1]
      rfl
    have hpres2 := create_region_present (e.create_region id cfg true).1 id cfg
      hrun1 hwr1 hsome2
    exact ⟨h2ok, hpres2.2, by rw [hpres2.2]⟩

/-- Witness for claim C4 at a concrete engine: creating region (1, 1) twice
with the flag set on a fresh two-worker engine succeeds both times and keeps
the stored configuration. -/
theorem create_region_if_not_exists_idempotent_witness :
    ((MitoEngine.new 2).create_region (RegionId.mk 1 1) 3 true).2 = .ok () ∧
    (((MitoEngine.new 2).create_region (RegionId.mk 1 1) 3 true).1.create_region
        (RegionId.mk 1 1) 3 true)
      = (((MitoEngine.new 2).create_region (RegionId.mk 1 1) 3 true).1, .ok ()) ∧
    (((MitoEngine.new 2).create_region (RegionId.mk 1 1) 3 true).1.create_region
        (RegionId.mk 1 1) 3 true).1.region_config (RegionId.mk 1 1)
      = ((MitoEngine.new 2).create_region (RegionId.mk 1 1) 3 true).1.region_config
          (RegionId.mk 1 1) :=
  create_region_if_not_exists_idempotent (MitoEngine.new 2) (RegionId.mk 1 1) 3
    rfl (by decide) rfl

end Mito

namespace Mito

/-- Counterexample to claim C5 as stated: two create requests for the same
`RegionId` serialized on a fresh engine, one of them with
`create_if_not_exists = false` (the other with the flag set), where BOTH
succeed — refuting "exactly one succeeds and the other fails with
RegionExists, never both succeed". -/
theorem create_race_claim_counterexample :
    ((MitoEngine.new 1).applyAll
        [EngineOp.create (RegionId.mk 1 1) 0 false,
          EngineOp.create (RegionId.mk 1 1) 0 true]).2
      = [Except.ok (), Except.ok ()] := rfl

/-- Claim C5 (amended): starting from a running engine (nonempty pool,
workers running) on which the region does not yet exist, two `create_region`
calls for the same `RegionId`, both with `create_if_not_exists = false`,
serialize through the owning worker: whichever is enqueued first completes
first and its effects are applied before the second begins, the
first-executed succeeds and the second fails with `RegionExists` — in either
order, so never both succeed and never both fail. -/
theorem create_race_serialized_exactly_one (e : MitoEngine) (id : RegionId)
    (cfg1 cfg2 : RegionConfig) (hr : e.running = true)
    (hlen : 0 < e.workers.length) (hwr : e.workersRunning = true)
    (habs : e.is_region_exists id = false) :
    (e.applyAll [EngineOp.create id cfg1 false, EngineOp.create id cfg2 false]).2
      = [Except.ok (), Except.error EngineError.RegionExists] ∧
    (e.applyAll [EngineOp.create id cfg2 false, EngineOp.create id cfg1 false]).2
      = [Except.ok (), Except.error EngineError.RegionExists] ∧
    (∀ op1 op2 : EngineOp,
      e.applyAll [op1, op2]
        = (((e.apply op1).1.apply op2).1,
            [(e.apply op1).2, ((e.apply op1).1.apply op2).2])) := by
  have habs2 : e.lookupRegion id = none := by
    rw [MitoEngine.is_region_exists, if_neg (by simp [hr])] at habs
    rcases he : e.lookupRegion id with _ | r
    · rfl
    · rw [he] at habs
      exact Bool.noConfusion habs
  have hfirst : ∀ cfgA cfgB : RegionConfig,
      (e.applyAll [EngineOp.create id cfgA false, EngineOp.create id cfgB false]).2
        = [Except.ok (), Except.error EngineError.RegionExists] := by
    intro cfgA cfgB
    obtain ⟨hok, hrun1, _, hwr1, hsome1⟩ :=
      create_region_absent_props e id cfgA false hr hlen hwr habs2
    have hsome : ((e.create_region id cfgA false).1.lookupRegion id).isSome
        = true := by
      rw [hsome1]
      rfl
    have hsecond := (create_region_present (e.create_region id cfgA false).1 id
      cfgB hrun1 hwr1 hsome).1
    rw [applyAll_pair]
    show [(e.create_region id cfgA false).2,
        ((e.create_region id cfgA false).1.create_region id cfgB false).2]
      = [Except.ok (), Except.error EngineError.RegionExists]
    rw [hok, hsecond]
  exact ⟨hfirst cfg1 cfg2, hfirst cfg2 cfg1, fun op1 op2 => applyAll_pair e op1 op2⟩

/-- Witness for the amended claim C5 at a concrete engine: on a fresh
single-worker engine, both serialization orders of two conflicting creates
for region (1, 1) yield exactly one success followed by `RegionExists`. -/
theorem create_race_serialized_exactly_one_witness :
    ((MitoEngine.new 1).applyAll
        [EngineOp.create (RegionId.mk 1 1) 0 false,
          EngineOp.create (RegionId.mk 1 1) 5 false]).2
      = [Except.ok (), Except.error EngineError.RegionExists] ∧
    ((MitoEngine.new 1).applyAll
        [EngineOp.create (RegionId.mk 1 1) 5 false,
          EngineOp.create (RegionId.mk 1 1) 0 false]).2
      = [Except.ok (), Except.error EngineError.RegionExists] :=
  ⟨(create_race_serialized_exactly_one (MitoEngine.new 1) (RegionId.mk 1 1) 0 5
      rfl (by decide) rfl rfl).1,
    (create_race_serialized_exactly_one (MitoEngine.new 1) (RegionId.mk 1 1) 0 5
      rfl (by decide) rfl rfl).2.1⟩

/-- Claim C6: `stop()` returns success, calling it a second time is a no-op
returning success (idempotence), and the stopped-to-running direction never
occurs: after a stop, applying any engine operation leaves the running flag
cleared. -/
theorem stop_idempotent_one_way (e : MitoEngine) :
    (e.stop).2 = .ok () ∧
    (e.stop).1.stop = ((e.stop).1, .ok ()) ∧
    ∀ op : EngineOp, ((e.stop).1.apply op).1.running = false := by
  refine ⟨rfl, ?_, ?_⟩
  · unfold MitoEngine.stop
    rw [List.map_map]
    have hf : Worker.stopWorker ∘ Worker.stopWorker = Worker.stopWorker :=
      funext fun w => rfl
    rw [hf]
  · intro op
    cases op with
    | create id cfg b =>
      show ((e.stop).1.create_region id cfg b).1.running = false
      rw [create_region_stopped (e.stop).1 id cfg b rfl]
      rfl
    | stopOp => rfl

/-- Claim C7: on a stopped engine, `is_region_exists` returns `false` for
every `RegionId` — it is total into `Bool`, so it cannot raise an error. -/
theorem is_region_exists_stopped_false (e : MitoEngine) (id : RegionId)
    (h : e.running = false) : e.is_region_exists id = false := by
  rw [MitoEngine.is_region_exists, if_pos h]

/-- Witness for claim C7: a freshly stopped engine that does contain region
(1, 1) still answers `false`. -/
theorem is_region_exists_stopped_false_witness :
    ((((MitoEngine.new 1).create_region (RegionId.mk 1 1) 0 false).1.stop).1.is_region_exists
        (RegionId.mk 1 1)) = false :=
  is_region_exists_stopped_false _ (RegionId.mk 1 1) rfl

end Mito

namespace Oss

/-- Claim C8: a backend construction failure is surfaced to the caller
verbatim (wrapped in `InitBackend` with the backend error carried unaltered),
a successful initialization is returned as-is, and initialization is
attempted exactly once — the outcome is fully determined by the single
application of the collaborator to the builder assembled from the config, so
two collaborators agreeing on that builder yield identical results (no
internal retry). -/
theorem new_oss_object_store_propagates_once (cfg : OssConfig)
    (init init2 : OssBuilder → Except Nat Nat) (e s : Nat) :
    (init (builderOf cfg) = .error e →
      new_oss_object_store init cfg = .error (StoreError.InitBackend e)) ∧
    (init (builderOf cfg) = .ok s →
      new_oss_object_store init cfg = .ok s) ∧
    (init (builderOf cfg) = init2 (builderOf cfg) →
      new_oss_object_store init cfg = new_oss_object_store init2 cfg) := by
  refine ⟨?_, ?_, ?_⟩
  · intro h
    rw [new_oss_object_store, h]
  · intro h
    rw [new_oss_object_store, h]
  · intro h
    rw [new_oss_object_store, new_oss_object_store, h]

/-- Witness for claim C8 at a concrete config and a failing collaborator:
the backend error code 7 is surfaced as `InitBackend 7`. -/
theorem new_oss_object_store_propagates_once_witness :
    new_oss_object_store (fun _ => .error 7)
        (OssConfig.mk "data" "bucket" "endpoint" "key" "secret")
      = .error (StoreError.InitBackend 7) :=
  (new_oss_object_store_propagates_once
      (OssConfig.mk "data" "bucket" "endpoint" "key" "secret")
      (fun _ => .error 7) (fun _ => .error 7) 7 0).1 rfl

end Oss

namespace Telemetry

/-- Claim C9: the uuid retrieval is a retry-with-cache state machine with the
fixed bound 3: with a cached uuid every call returns it unchanged; with no
cache and the counter past the bound the call returns `none` for every
possible retrieval outcome, i.e. without attempting retrieval; with no cache
and the counter within the bound, a failed attempt increments the counter,
and a successful attempt caches the uuid so that every later call returns
that same uuid. -/
theorem get_uuid_retry_cache_machine (s : CollectorState) (u : String)
    (fetch : Option String) :
    (s.uuid_cache = some u → get_uuid fetch s = (some u, s)) ∧
    (s.uuid_cache = none → s.retry > 3 → get_uuid fetch s = (none, s)) ∧
    (s.uuid_cache = none → s.retry ≤ 3 →
      get_uuid none s = (none, { s with retry := s.retry + 1 })) ∧
    (s.uuid_cache = none → s.retry ≤ 3 →
      get_uuid (some u) s = (some u, { s with uuid_cache := some u }) ∧
      ∀ f2 : Option String,
        get_uuid f2 (get_uuid (some u) s).2
          = (some u, (get_uuid (some u) s).2)) := by
  refine ⟨?_, ?_, ?_, ?_⟩
  · intro h
    simp only [get_uuid.eq_def, h]
  · intro h h3
    simp only [get_uuid.eq_def, h]
    rw [if_pos h3]
  · intro h h3
    have hn : ¬ s.retry > 3 := Int.not_lt.mpr h3
    simp only [get_uuid.eq_def, h]
    rw [if_neg hn]
  · intro h h3
    have hn : ¬ s.retry > 3 := Int.not_lt.mpr h3
    have h1 : get_uuid (some u) s = (some u, { s with uuid_cache := some u }) := by
      simp only [get_uuid.eq_def, h]
      rw [if_neg hn]
    refine ⟨h1, fun f2 => ?_⟩
    rw [h1]
    rfl

/-- Witness for claim C9 at concrete collector states: a failed attempt at
retry 0 increments the counter, a successful attempt at retry 0 caches the
uuid and later calls return it, and at retry 4 the machine yields `none`. -/
theorem get_uuid_retry_cache_machine_witness :
    get_uuid none (CollectorState.mk 0 none)
      = (none, CollectorState.mk 1 none) ∧
    get_uuid (some "u") (CollectorState.mk 0 none)
      = (some "u", CollectorState.mk 0 (some "u")) ∧
    get_uuid none (CollectorState.mk 0 (some "u"))
      = (some "u", CollectorState.mk 0 (some "u")) ∧
    get_uuid (some "v") (CollectorState.mk 4 none)
      = (none, CollectorState.mk 4 none) := by
  refine ⟨?_, ?_, ?_, ?_⟩
  · exact (get_uuid_retry_cache_machine (CollectorState.mk 0 none) "u"
      none).2.2.1 rfl (by decide)
  · exact ((get_uuid_retry_cache_machine (CollectorState.mk 0 none) "u"
      none).2.2.2 rfl (by decide)).1
  · exact (get_uuid_retry_cache_machine (CollectorState.mk 0 (some "u")) "u"
      none).1 rfl
  · exact (get_uuid_retry_cache_machine (CollectorState.mk 4 none) "u"
      (some "v")).2.1 rfl (by decide)

/-- Claim C10: `default_get_uuid` returns the file's contents when the read
succeeds; on a `NotFound` read error it attempts the write and returns the
freshly generated uuid whatever the write's outcome; on every other read
error it returns `none` without writing. -/
theorem default_get_uuid_read_cases (s freshUuid : String) (k : FsErrorKind)
    (w : Except FsErrorKind Unit) (hk : k ≠ FsErrorKind.NotFound) :
    default_get_uuid (.ok s) freshUuid w = (some s, false) ∧
    default_get_uuid (.error FsErrorKind.NotFound) freshUuid w
      = (some freshUuid, true) ∧
    default_get_uuid (.error k) freshUuid w = (none, false) := by
  refine ⟨rfl, ?_, ?_⟩
  · cases w <;> rfl
  · simp only [default_get_uuid.eq_def]
    rw [if_neg hk]

/-- Witness for claim C10 at concrete inputs, including a failing write on
the `NotFound` path and a `PermissionDenied` read error. -/
theorem default_get_uuid_read_cases_witness :
    default_get_uuid (.ok "stored") "fresh" (.error FsErrorKind.Other)
      = (some "stored", false) ∧
    default_get_uuid (.error FsErrorKind.NotFound) "fresh"
        (.error FsErrorKind.Other)
      = (some "fresh", true) ∧
    default_get_uuid (.error FsErrorKind.PermissionDenied) "fresh"
        (.error FsErrorKind.Other)
      = (none, false) :=
  default_get_uuid_read_cases "stored" "fresh" FsErrorKind.PermissionDenied
    (.error FsErrorKind.Other) (by decide)

end Telemetry
